import Mathlib

/-!
Shallow embedding of the data-normalization and query pipeline of the
Dashboard repository (`src/m365/views.py`), together with proofs about the
behaviour its specification claims.

Python values flowing through the pipeline (JSON scalars, strings and
nested lookup objects) are modelled by `PyVal`; Python `float` arithmetic is
modelled by exact rationals (`Rat`); Python `str` operations used by the
views are modelled by executable functions over `List Char`.
-/

/-- A Python value as it appears in the JSON rows handled by the views:
`None`, `str`, `int`, `float`, `bool`, or a nested dict (used for lookup
fields such as `Author`). Dicts are association lists in key-insertion
order, mirroring CPython dict semantics. -/
inductive PyVal : Type where
  | pnone : PyVal
  | pstr (s : String) : PyVal
  | pint (n : Int) : PyVal
  | pfloat (q : Rat) : PyVal
  | pbool (b : Bool) : PyVal
  | pdict (kvs : List (String × PyVal)) : PyVal

/-- Python truthiness (`bool(v)`) for the value shapes of `PyVal`. -/
def truthy : PyVal → Bool
  | .pnone => false
  | .pstr s => !(s == "")
  | .pint n => !(n == 0)
  | .pfloat q => decide (¬ q = 0)
  | .pbool b => b
  | .pdict kvs => !kvs.isEmpty

/-- Python `str(v)`. Exact for `None`, strings, ints and bools (the cases
the views' comparisons depend on); floats are rendered via `Rat`'s
representation and dicts by a fixed placeholder, as their exact rendering
never influences a comparison made by the code. -/
def pyStr : PyVal → String
  | .pnone => "None"
  | .pstr s => s
  | .pint n => toString n
  | .pfloat q => toString q
  | .pbool b => if b then "True" else "False"
  | .pdict _ => "\x7b...\x7d"

/-- CPython-dict lookup in an association list: the first binding of the key
(keys are unique in a dict built by normal insertion). -/
def lookupKV (kvs : List (String × PyVal)) (k : String) : Option PyVal :=
  match kvs.find? (fun p => p.1 == k) with
  | some p => some p.2
  | none => none

/-- CPython-dict assignment `d[k] = v`: updates the existing binding in
place (keeping its position) or appends a new one. -/
def dictSet (kvs : List (String × PyVal)) (k : String) (v : PyVal) : List (String × PyVal) :=
  if (kvs.find? (fun p => p.1 == k)).isSome then
    kvs.map (fun p => if p.1 == k then (k, v) else p)
  else kvs ++ [(k, v)]

/-- Python `str.lower()`, modelled on the ASCII range handled by this
application (`Char.toLower` lowercases only A-Z). -/
def pyLower (s : String) : String := String.mk (s.data.map Char.toLower)

/-- The ASCII whitespace stripped by Python `str.strip()`. -/
def isPySpace (c : Char) : Bool :=
  c == ' ' || c == '\t' || c == '\n' || c == '\r' || c == '\x0b' || c == '\x0c'

/-- Python `str.strip()` on ASCII whitespace. -/
def pyStrip (s : String) : String :=
  String.mk (((s.data.dropWhile isPySpace).reverse.dropWhile isPySpace).reverse)

/-- Whether the pattern equals the first characters of the text. -/
def listPrefixAt : List Char → List Char → Bool
  | [], _ => true
  | _ :: _, [] => false
  | a :: as, b :: bs => a == b && listPrefixAt as bs

/-- Whether the pattern occurs contiguously anywhere in the text. -/
def subAt : List Char → List Char → Bool
  | pat, [] => listPrefixAt pat []
  | pat, c :: cs => listPrefixAt pat (c :: cs) || subAt pat cs

/-- Python `sub in s` for strings. -/
def strContainsSub (s sub : String) : Bool := subAt sub.data s.data

/-- Python `s.startswith(p)`. -/
def strStartsWith (s p : String) : Bool := listPrefixAt p.data s.data

/-- Python `s.endswith(p)`. -/
def strEndsWith (s p : String) : Bool := listPrefixAt p.data.reverse s.data.reverse

/-- Python `"sep".join(parts)`. -/
def joinWith (sep : String) : List String → String
  | [] => ""
  | [x] => x
  | x :: y :: rest => x ++ sep ++ joinWith sep (y :: rest)

/-! ### Dates

`datetime.date` values constructed by the views' parsers. Only the fields
the pipeline compares (`year`, `month`, `day`) are modelled. -/

/-- A Python `datetime.date` (the time component, never compared by the
pipeline, is dropped). -/
structure PyDate where
  year : Nat
  month : Nat
  day : Nat
deriving DecidableEq, Repr

/-- Python `date` comparison `a < b` (lexicographic on year, month, day). -/
def dateLt (a b : PyDate) : Bool :=
  decide (a.year < b.year) ||
    (a.year == b.year &&
      (decide (a.month < b.month) || (a.month == b.month && decide (a.day < b.day))))

/-- Gregorian leap year, as in Python's `calendar`/`datetime` validation. -/
def isLeapYear (y : Nat) : Bool := (y % 4 == 0 && y % 100 != 0) || y % 400 == 0

/-- Number of days of a month, used by `datetime` to validate a parsed day. -/
def daysInMonth (y m : Nat) : Nat :=
  if m == 2 then (if isLeapYear y then 29 else 28)
  else if m == 4 || m == 6 || m == 9 || m == 11 then 30
  else 31

/-- Numeric value of an ASCII digit. -/
def digitVal (c : Char) : Option Nat :=
  if c.isDigit then some (c.toNat - 48) else none

/-- `strptime`'s `%Y` directive: exactly four digits. -/
def parseY4 : List Char → Option (Nat × List Char)
  | a :: b :: c :: d :: rest =>
    (match digitVal a, digitVal b, digitVal c, digitVal d with
     | some w, some x, some y, some z => some (w * 1000 + x * 100 + y * 10 + z, rest)
     | _, _, _, _ => none)
  | _ => none

/-- A one-or-two-digit `strptime` numeric directive: like the regexes
CPython compiles for `%m`, `%d`, `%H`, `%M`, `%S`, it prefers the two-digit
reading (when `twoOk` holds of its value) and backtracks to the one-digit
reading (when `oneOk` holds) if the rest of the pattern fails. -/
def num2then1 {α : Type} (twoOk oneOk : Nat → Bool) (cs : List Char)
    (k : Nat → List Char → Option α) : Option α :=
  match cs with
  | [] => none
  | c1 :: rest1 =>
    match digitVal c1 with
    | none => none
    | some d1 =>
      let one : Option α := if oneOk d1 then k d1 rest1 else none
      match rest1 with
      | [] => one
      | c2 :: rest2 =>
        match digitVal c2 with
        | none => one
        | some d2 =>
          let n := d1 * 10 + d2
          if twoOk n then
            match k n rest2 with
            | some r => some r
            | none => one
          else one

/-- Two-digit month predicate of CPython's `%m` regex (`1[0-2]|0[1-9]`). -/
def monthTwoOk (n : Nat) : Bool := decide (1 ≤ n) && decide (n ≤ 12)

/-- Two-digit day predicate of CPython's `%d` regex (`3[01]|[12]\d|0[1-9]`). -/
def dayTwoOk (n : Nat) : Bool := decide (1 ≤ n) && decide (n ≤ 31)

/-- One-digit predicate of `%m`/`%d` (`[1-9]`). -/
def oneNonZero (n : Nat) : Bool := decide (1 ≤ n)

/-- Structural match of `strptime(s, "%Y-%m-%d")`, before `datetime`
validates the day against the month. -/
def ymdRaw (cs : List Char) : Option (Nat × Nat × Nat) :=
  match parseY4 cs with
  | some (y, '-' :: r1) =>
    num2then1 monthTwoOk oneNonZero r1 (fun m r2 =>
      match r2 with
      | '-' :: r3 =>
        num2then1 dayTwoOk oneNonZero r3 (fun d r4 =>
          match r4 with
          | [] => some (y, m, d)
          | _ => none)
      | _ => none)
  | _ => none

/-- The `datetime` constructor's validation of a parsed date: the year is at
least `MINYEAR` (1) and the day exists in the month. -/
def validYMD (y m d : Nat) : Bool := decide (1 ≤ y) && decide (d ≤ daysInMonth y m)

/-- Python `datetime.strptime(s, "%Y-%m-%d")` returning its date (or `none`
where Python raises `ValueError`). -/
def pyStrptimeYMD (s : String) : Option PyDate :=
  match ymdRaw s.data with
  | some (y, m, d) => if validYMD y m d then some ⟨y, m, d⟩ else none
  | none => none

/-- Structural match of `strptime(s, "%Y-%m-%dT%H:%M:%SZ")`; returns year,
month, day and seconds (hours and minutes are range-checked by the regex
itself and never used afterwards). -/
def isoZRaw (cs : List Char) : Option (Nat × Nat × Nat × Nat) :=
  match parseY4 cs with
  | some (y, '-' :: r1) =>
    num2then1 monthTwoOk oneNonZero r1 (fun m r2 =>
      match r2 with
      | '-' :: r3 =>
        num2then1 dayTwoOk oneNonZero r3 (fun d r4 =>
          match r4 with
          | 'T' :: r5 =>
            num2then1 (fun n => decide (n ≤ 23)) (fun _ => true) r5 (fun _h r6 =>
              match r6 with
              | ':' :: r7 =>
                num2then1 (fun n => decide (n ≤ 59)) (fun _ => true) r7 (fun _mi r8 =>
                  match r8 with
                  | ':' :: r9 =>
                    num2then1 (fun n => decide (n ≤ 61)) (fun _ => true) r9 (fun s r10 =>
                      match r10 with
                      | ['Z'] => some (y, m, d, s)
                      | _ => none)
                  | _ => none)
              | _ => none)
          | _ => none)
      | _ => none)
  | _ => none

/-- `datetime.strptime(s, "%Y-%m-%dT%H:%M:%SZ")`, first chart pattern.
The regex admits seconds up to 61 but the `datetime` constructor then
rejects 60 and 61, so both must pass. -/
def fmtIsoZ (s : String) : Option PyDate :=
  match isoZRaw s.data with
  | some (y, m, d, sec) =>
    if validYMD y m d && decide (sec ≤ 59) then some ⟨y, m, d⟩ else none
  | none => none

/-- Structural match of `strptime(s, "%m/%d/%Y")`. -/
def mdyRaw (cs : List Char) : Option (Nat × Nat × Nat) :=
  num2then1 monthTwoOk oneNonZero cs (fun m r1 =>
    match r1 with
    | '/' :: r2 =>
      num2then1 dayTwoOk oneNonZero r2 (fun d r3 =>
        match r3 with
        | '/' :: r4 =>
          (match parseY4 r4 with
           | some (y, []) => some (y, m, d)
           | _ => none)
        | _ => none)
    | _ => none)

/-- Structural match of `strptime(s, "%d/%m/%Y")`. -/
def dmyRaw (cs : List Char) : Option (Nat × Nat × Nat) :=
  num2then1 dayTwoOk oneNonZero cs (fun d r1 =>
    match r1 with
    | '/' :: r2 =>
      num2then1 monthTwoOk oneNonZero r2 (fun m r3 =>
        match r3 with
        | '/' :: r4 =>
          (match parseY4 r4 with
           | some (y, []) => some (y, m, d)
           | _ => none)
        | _ => none)
    | _ => none)

/-- `datetime.strptime(s, "%m/%d/%Y")`, third chart pattern. -/
def fmtMDY (s : String) : Option PyDate :=
  match mdyRaw s.data with
  | some (y, m, d) => if validYMD y m d then some ⟨y, m, d⟩ else none
  | none => none

/-- `datetime.strptime(s, "%d/%m/%Y")`, fourth chart pattern. -/
def fmtDMY (s : String) : Option PyDate :=
  match dmyRaw s.data with
  | some (y, m, d) => if validYMD y m d then some ⟨y, m, d⟩ else none
  | none => none

/-- Python `s.replace("Z", "+00:00")` as done by the timesheet view before
calling `fromisoformat`. -/
def replaceZ (s : String) : String :=
  String.mk (s.data.foldr
    (fun c acc => if c == 'Z' then '+' :: '0' :: '0' :: ':' :: '0' :: '0' :: acc else c :: acc) [])

/-- Digits of a two-character group. -/
def twoDigits (a b : Char) : Option Nat :=
  match digitVal a, digitVal b with
  | some x, some y => some (x * 10 + y)
  | _, _ => none

/-- Trailing UTC-offset accepted after the time component: empty, or a sign
followed by `HH:MM`. -/
def validOffsetTail : List Char → Bool
  | [] => true
  | sign :: h1 :: h2 :: ':' :: m1 :: m2 :: [] =>
    (sign == '+' || sign == '-') &&
      (match twoDigits h1 h2, twoDigits m1 m2 with
       | some h, some mi => decide (h ≤ 23) && decide (mi ≤ 59)
       | _, _ => false)
  | _ => false

/-- Optional `:SS` seconds group before the offset. -/
def validSecondsTail : List Char → Bool
  | ':' :: s1 :: s2 :: rest =>
    (match twoDigits s1 s2 with
     | some s => decide (s ≤ 59) && validOffsetTail rest
     | none => false)
  | rest => validOffsetTail rest

/-- The time component `HH:MM[:SS][±HH:MM]` after the `T` separator. -/
def validTimeTail (cs : List Char) : Bool :=
  match cs with
  | h1 :: h2 :: ':' :: m1 :: m2 :: rest =>
    (match twoDigits h1 h2, twoDigits m1 m2 with
     | some h, some mi => decide (h ≤ 23) && decide (mi ≤ 59) && validSecondsTail rest
     | _, _ => false)
  | _ => false

/-- The date component extracted by
`datetime.fromisoformat(s).date()` on the ISO-8601 shapes this application
receives: `"YYYY-MM-DD"` (two-digit month and day), a `T` separator, a time
`HH:MM[:SS]`, and an optional numeric UTC offset (the caller rewrites a
trailing `Z` to `+00:00` first). Other `fromisoformat` extensions
(fractional seconds, hour-only times) are treated as parse failures, which
is sound for every string these claims evaluate. -/
def fromisoDate (s : String) : Option PyDate :=
  match parseY4 s.data with
  | some (y, '-' :: m1 :: m2 :: '-' :: d1 :: d2 :: 'T' :: timeTail) =>
    (match twoDigits m1 m2, twoDigits d1 d2 with
     | some m, some d =>
       if decide (1 ≤ y) && decide (1 ≤ m) && decide (m ≤ 12) && decide (1 ≤ d) &&
           decide (d ≤ daysInMonth y m) && validTimeTail timeTail
       then some ⟨y, m, d⟩ else none
     | _, _ => none)
  | _ => none

/-- `parse_date_value` of the timesheet view (`views.py` 433-446): falsy
values parse to `None`; strings containing `T` go through
`fromisoformat` on the `Z`-rewritten string; other strings are truncated to
ten characters and parsed as `%Y-%m-%d`; non-strings parse to `None`. -/
def parseDateValueTS (v : PyVal) : Option PyDate :=
  if truthy v then
    match v with
    | .pstr s =>
      if s.data.contains 'T' then fromisoDate (replaceZ s)
      else pyStrptimeYMD (String.mk (s.data.take 10))
    | _ => none
  else none

/-- `parse_date_value` of the charts view (`views.py` 649-663) applied to a
string: the four literal patterns tried in their source order, first
success winning. -/
def parseChartStr (s : String) : Option PyDate :=
  match fmtIsoZ s with
  | some d => some d
  | none =>
    match pyStrptimeYMD s with
    | some d => some d
    | none =>
      match fmtMDY s with
      | some d => some d
      | none => fmtDMY s

/-- `parse_date_value` of the charts view on an arbitrary value: falsy and
non-string values parse to `None`. -/
def parseChartDate (v : PyVal) : Option PyDate :=
  if truthy v then
    match v with
    | .pstr s => parseChartStr s
    | _ => none
  else none

/-! ### Rows and the Graph-path query pipeline (`timesheet_list`, `views.py` 228-563) -/

/-- A table row: a CPython dict from column name to value, in insertion
order. -/
def Row : Type := List (String × PyVal)

/-- Python `float(s)` on the decimal forms relevant to the hours fields:
an optional sign, digits with an optional single decimal point (at least
one digit overall), and an optional decimal exponent. The special forms
Python additionally accepts (`inf`, `nan`, underscore separators) never
appear in this data and are treated as failures. -/
def pyFloat (s : String) : Option Rat :=
  let step1 : Int × List Char :=
    match s.data with
    | '+' :: r => (1, r)
    | '-' :: r => (-1, r)
    | cs => (1, cs)
  let sign := step1.1
  let ip := step1.2.takeWhile (fun c => c.isDigit)
  let afterIp := step1.2.dropWhile (fun c => c.isDigit)
  let hasDot := match afterIp with
    | '.' :: _ => true
    | _ => false
  let fracSrc := if hasDot then afterIp.drop 1 else afterIp
  let fp : List Char := if hasDot then fracSrc.takeWhile (fun c => c.isDigit) else []
  let rest := if hasDot then fracSrc.dropWhile (fun c => c.isDigit) else afterIp
  if ip.isEmpty && fp.isEmpty then none
  else
    let mantNum : Nat := (ip ++ fp).foldl (fun a c => a * 10 + (c.toNat - 48)) 0
    let mantDen : Nat := 10 ^ fp.length
    match rest with
    | [] => some ((sign * mantNum : Int) / (mantDen : Rat))
    | e :: er =>
      if e == 'e' || e == 'E' then
        let expStep : Int × List Char :=
          match er with
          | '+' :: r => (1, r)
          | '-' :: r => (-1, r)
          | cs => (1, cs)
        let eds := expStep.2.takeWhile (fun c => c.isDigit)
        let afterE := expStep.2.dropWhile (fun c => c.isDigit)
        if eds.isEmpty || !afterE.isEmpty then none
        else
          let ev : Nat := eds.foldl (fun a c => a * 10 + (c.toNat - 48)) 0
          let base : Rat := (sign * mantNum : Int) / (mantDen : Rat)
          if expStep.1 = 1 then some (base * ((10 ^ ev : Nat) : Rat))
          else some (base / ((10 ^ ev : Nat) : Rat))
      else none

/-- The contribution of one `Hours` value to the aggregate sum
(`views.py` 484-492): ints and floats count as themselves (a Python `bool`
is an `int` subclass, counting 1 for `True`), a non-blank string counts as
`float(s.strip())` when that parses and is silently skipped otherwise, and
every other shape is skipped. -/
def hoursContribution (v : PyVal) : Rat :=
  match v with
  | .pint n => (n : Rat)
  | .pfloat q => q
  | .pbool b => if b then 1 else 0
  | .pstr s =>
    if pyStrip s ≠ "" then
      match pyFloat (pyStrip s) with
      | some q => q
      | none => 0
    else 0
  | _ => 0

/-- The `Hours` value of a row, `row.get('Hours', 0)`. -/
def rowHoursVal (r : Row) : PyVal := (lookupKV r "Hours").getD (.pint 0)

/-- `total_hours` of the filtered rows (`views.py` 483-492). -/
def totalHours (rows : List Row) : Rat :=
  rows.foldl (fun acc r => acc + hoursContribution (rowHoursVal r)) 0

/-- `get_author_text` (`views.py` 415-419) and the identical unwrapping in
the charts view: a dict author yields its `LookupValue` (a display string
in this API; a non-string `LookupValue`, which would make the caller's
`.lower()` raise, is rendered through `str`), a truthy scalar its `str`,
anything falsy the empty string. -/
def authorTextOf (v : PyVal) : String :=
  match v with
  | .pdict kvs =>
    (match lookupKV kvs "LookupValue" with
     | some (.pstr s) => s
     | some w => pyStr w
     | none => "")
  | w => if truthy w then pyStr w else ""

/-- Free-text search over a row (`views.py` 410-412): the space-join of the
`str` of every non-`None` value, lowercased. -/
def rowSearchText (r : Row) : String :=
  joinWith " " ((r.filter (fun p => !(match p.2 with | .pnone => true | _ => false))).map
    (fun p => pyStr p.2))

/-- The search filter (`views.py` 410-412). -/
def applySearch (search : String) (rows : List Row) : List Row :=
  if search ≠ "" then
    rows.filter (fun r => strContainsSub (pyLower (rowSearchText r)) (pyLower search))
  else rows

/-- The author filter (`views.py` 413-421). -/
def applyAuthorFilter (af : String) (rows : List Row) : List Row :=
  if af ≠ "" then
    rows.filter (fun r =>
      strContainsSub (pyLower (authorTextOf ((lookupKV r "Author").getD (.pstr "")))) (pyLower af))
  else rows

/-- The customer filter (`views.py` 422-423). -/
def applyCustomerFilter (cf : String) (rows : List Row) : List Row :=
  if cf ≠ "" then
    rows.filter (fun r =>
      strContainsSub (pyLower (pyStr ((lookupKV r "Customer_x0020_Name").getD (.pstr ""))))
        (pyLower cf))
  else rows

/-- The multi-select code filter (`views.py` 424-426): a row passes when any
selected code is a substring of its `Code` value. -/
def applyCodeFilters (codes : List String) (rows : List Row) : List Row :=
  if codes ≠ [] then
    rows.filter (fun r =>
      codes.any (fun code =>
        strContainsSub (pyLower (pyStr ((lookupKV r "Code").getD (.pstr "")))) (pyLower code)))
  else rows

/-- The billable filter (`views.py` 427-428). -/
def applyBillableFilter (bf : String) (rows : List Row) : List Row :=
  if bf ≠ "" then
    rows.filter (fun r =>
      strContainsSub (pyLower (pyStr ((lookupKV r "Billable").getD (.pstr "")))) (pyLower bf))
  else rows

/-- The work date of a row as used by `filter_by_date` (`views.py`
448-453): the `Work_x0020_Date` entry when present and truthy, parsed by
the timesheet `parse_date_value`. -/
def rowWorkDate (r : Row) : Option PyDate :=
  match lookupKV r "Work_x0020_Date" with
  | some v => if truthy v then parseDateValueTS v else none
  | none => none

/-- `filter_by_date` (`views.py` 448-474): rows without a parsable date are
kept exactly when no date bound is set; otherwise each parsable bound
excludes the row strictly beyond it, and an unparsable bound is ignored. -/
def filterByDate (dateFrom dateTo : String) (r : Row) : Bool :=
  match rowWorkDate r with
  | none => decide (dateFrom = "" ∧ dateTo = "")
  | some d =>
    let fromOk :=
      if dateFrom ≠ "" then
        match pyStrptimeYMD dateFrom with
        | some fd => !(dateLt d fd)
        | none => true
      else true
    let toOk :=
      if dateTo ≠ "" then
        match pyStrptimeYMD dateTo with
        | some td => !(dateLt td d)
        | none => true
      else true
    fromOk && toOk

/-- The date-range stage (`views.py` 431-476): the filter only runs when at
least one bound is set. -/
def applyDateRange (dateFrom dateTo : String) (rows : List Row) : List Row :=
  if dateFrom ≠ "" ∨ dateTo ≠ "" then rows.filter (filterByDate dateFrom dateTo) else rows

/-- The sort key (`views.py` 480): `str(x.get(sort_by, '')).lower()`. -/
def sortKeyOf (sortBy : String) (r : Row) : String :=
  pyLower (pyStr ((lookupKV r sortBy).getD (.pstr "")))

/-- The comparator realized by Python's `list.sort(key=..., reverse=desc)`:
ascending on the sort key, or descending when `desc` (CPython implements
`reverse=True` by reversing around a stable ascending sort, which is the
stable descending sort modelled here). -/
def rowLe (sortBy : String) (desc : Bool) (a b : Row) : Bool :=
  if desc then decide (sortKeyOf sortBy b ≤ sortKeyOf sortBy a)
  else decide (sortKeyOf sortBy a ≤ sortKeyOf sortBy b)

/-- The sort stage (`views.py` 479-480): Python's stable `list.sort` with
the lowercased stringified key, reversed when descending (keeping ties in
original order), and a no-op when the sort column is not displayed or the
row list is empty. -/
def sortRows (sortBy : String) (desc : Bool) (columns : List String) (rows : List Row) :
    List Row :=
  if sortBy ∈ columns ∧ rows.isEmpty = false then rows.mergeSort (rowLe sortBy desc)
  else rows

/-! ### Column schema selector (`views.py` 297-332) -/

/-- One entry of the Graph column-metadata response (`$select=name,
displayName,hidden,readOnly`); only the fields the selector reads are
modelled. -/
structure ColDef where
  name : String
  hidden : Bool

/-- The keys of `available` (`views.py` 303): the names of the non-hidden
column definitions, one per name, in first-occurrence order (CPython dict
comprehension semantics). -/
def availableNames (cds : List ColDef) : List String :=
  cds.foldl (fun acc c =>
    if c.hidden then acc
    else if acc.contains c.name then acc
    else acc ++ [c.name]) []

/-- The hard-coded preference order (`views.py` 302). -/
def preferredColumns : List String :=
  ["Author", "Work_x0020_Date", "Contractor", "CustomerName", "Customer_x0020_Name",
   "Code", "Hours", "Mileage", "Billable", "Project", "Status"]

/-- First selector pass (`views.py` 309-311): preferred columns that are
available and not yet chosen. -/
def schemaStep1 (avail : List String) : List String :=
  preferredColumns.foldl (fun acc key =>
    if avail.contains key && !acc.contains key then acc ++ [key] else acc) []

/-- Second selector pass (`views.py` 312-317): remaining available columns
that do not start with an underscore and whose lowercase name neither is
nor ends in "type". -/
def schemaStep2 (avail acc0 : List String) : List String :=
  avail.foldl (fun acc n =>
    if !acc.contains n && !strStartsWith n "_" && !strEndsWith (pyLower n) "type" &&
        !(pyLower n == "type")
    then acc ++ [n] else acc) acc0

/-- `schema_columns` after forcing `Id` first (`views.py` 297-325). -/
def schemaColumnsOf (cds : List ColDef) : List String :=
  let s2 := schemaStep2 (availableNames cds) (schemaStep1 (availableNames cds))
  if s2.contains "Id" then "Id" :: s2.filter (fun c => c ≠ "Id")
  else "Id" :: s2

/-- The displayed columns (`views.py` 332):
`schema_columns[:8] if schema_columns else ['Id']`. -/
def displayColumns (cds : List ColDef) : List String :=
  let sc := schemaColumnsOf cds
  if sc.isEmpty then ["Id"] else sc.take 8

/-- A non-identifier column name the selector would keep: available, and
either preferred or passing the underscore/type screens. -/
def eligibleNonId (cds : List ColDef) : List String :=
  (availableNames cds).filter (fun n =>
    (preferredColumns.contains n ||
      (!strStartsWith n "_" && !strEndsWith (pyLower n) "type" && !(pyLower n == "type"))) &&
    n ≠ "Id")

/-! ### Request parameters (`views.py` 236-246) -/

/-- `page = max(int(request.GET.get('page', 1)), 1)` (`views.py` 236). -/
def clampPage (p : Int) : Int := max p 1

/-- `page_size = min(max(int(request.GET.get('page_size', 10)), 1), 100)`
(`views.py` 237). -/
def clampPageSize (ps : Int) : Int := min (max ps 1) 100

/-- The timesheet view's query parameters after line 236-246 parsing:
`page`/`pageSize` as submitted integers (clamped by the view), the string
filters already `.strip()`-ed as the view does. -/
structure QueryParams where
  page : Int
  pageSize : Int
  search : String
  sortBy : String
  sortDesc : Bool
  author : String
  customer : String
  codes : List String
  billable : String
  dateFrom : String
  dateTo : String

/-- Parameters of a request with every filter at its default. -/
def defaultParams : QueryParams :=
  { page := 1, pageSize := 10, search := "", sortBy := "Id", sortDesc := false,
    author := "", customer := "", codes := [], billable := "", dateFrom := "", dateTo := "" }

/-! ### Dual-source row fetch and the rendered context (`views.py` 328-563) -/

/-- One Graph list item: its top-level `id` and its `fields` dict. -/
structure GraphItem where
  id : PyVal
  fields : List (String × PyVal)

/-- The upstream SharePoint REST items response: HTTP status, body text and
the decoded `value` array (each item a flat dict). -/
structure RestResponse where
  status : Nat
  text : String
  items : List (List (String × PyVal))

/-- The upstream Graph items response: HTTP status, body text and the
decoded `value` array. -/
structure GraphResponse where
  status : Nat
  text : String
  items : List GraphItem

/-- The context handed to the timesheet template (the fields the claims
observe). -/
structure TableCtx where
  columns : List String
  rows : List Row
  total : Option Nat
  totalPages : Int
  hasPrev : Bool
  hasNext : Bool
  totalHoursVal : Rat

/-- Outcome of a request to the timesheet view: a rendered page, a redirect
carrying an error message, or an uncaught Python exception. -/
inductive ViewOutcome : Type where
  | render (ctx : TableCtx) : ViewOutcome
  | redirect (target : String) (msg : String) : ViewOutcome
  | unboundLocal (name : String) : ViewOutcome

/-- Whether the outcome is a successful render. -/
def isRender : ViewOutcome → Bool
  | .render _ => true
  | _ => false

/-- Row built from one REST item (`views.py` 373-376): the item projected
onto the display columns, skipping names starting with `@`. -/
def restRow (columns : List String) (it : List (String × PyVal)) : Row :=
  (columns.filter (fun c => !strStartsWith c "@")).foldl
    (fun row col => dictSet row col ((lookupKV it col).getD .pnone)) []

/-- Row built from one Graph item (`views.py` 401-408): `Id` from the item
id, then each non-`Id` display column from the `fields` dict (absent fields
become `None`). -/
def buildGraphRow (columns : List String) (it : GraphItem) : Row :=
  columns.foldl
    (fun row col =>
      if col == "Id" then row
      else dictSet row col ((lookupKV it.fields col).getD .pnone))
    [("Id", it.id)]

/-- The Graph fallback branch (`views.py` 380-563): fetch failure redirects
to the list browser; success runs search, field filters, date range, sort,
the hours aggregate, pagination, and renders. -/
def graphBranch (graph : GraphResponse) (columns0 : List String) (page pageSize : Int)
    (p : QueryParams) : ViewOutcome :=
  if graph.status ≠ 200 then
    .redirect "m365_lists"
      ("Failed to fetch timesheet items: " ++ toString graph.status ++ " " ++ graph.text)
  else
    let columns := columns0.take 8
    let rows0 := graph.items.map (buildGraphRow columns)
    let rows1 := applySearch p.search rows0
    let rows2 := applyAuthorFilter p.author rows1
    let rows3 := applyCustomerFilter p.customer rows2
    let rows4 := applyCodeFilters p.codes rows3
    let rows5 := applyBillableFilter p.billable rows4
    let rows6 := applyDateRange p.dateFrom p.dateTo rows5
    let rows7 := sortRows p.sortBy p.sortDesc columns rows6
    let th := totalHours rows7
    let total : Nat := rows7.length
    let paged := (rows7.drop ((page - 1) * pageSize).toNat).take pageSize.toNat
    let hasPrev := decide (1 < page)
    let hasNext := decide (page * pageSize < (total : Int))
    let totalPages : Int := if total ≠ 0 then (total + pageSize - 1) / pageSize else 1
    .render
      { columns := columns, rows := paged, total := some total, totalPages := totalPages,
        hasPrev := hasPrev, hasNext := hasNext, totalHoursVal := th }

/-- The SharePoint REST success branch (`views.py` 368-378, 499-563): all
fetched items are projected onto the display columns with no slicing (the
`skip` offset computed at line 352 is never used), `total` is `None`,
`has_next` compares the rendered row count with the page size and
`total_pages` falls back to 1 — but building the template context then
reads `total_hours`, which is only ever assigned inside the Graph branch,
so the request dies with `UnboundLocalError`. -/
def restSuccess (rest : RestResponse) (columns : List String) (page pageSize : Int) :
    ViewOutcome :=
  let rows := rest.items.map (restRow columns)
  let _total : Option Nat := none
  let _hasPrev := decide (1 < page)
  let _hasNext := decide ((rows.length : Int) = pageSize)
  let _totalPages : Int := 1
  .unboundLocal "total_hours"

/-- The timesheet view from the point where display columns are known
(`views.py` 329-563). `hostname` states whether a SharePoint hostname is
configured, `spTokenOk` whether the SharePoint token acquisition yields a
token. A REST failure clears the hostname flag (line 367) and falls through
to the Graph branch. -/
def timesheetServe (hostname spTokenOk : Bool) (rest : RestResponse) (graph : GraphResponse)
    (schemaCols : List String) (p : QueryParams) : ViewOutcome :=
  let page := clampPage p.page
  let pageSize := clampPageSize p.pageSize
  let columns := if schemaCols.isEmpty then ["Id"] else schemaCols.take 8
  if hostname then
    if !spTokenOk then
      .redirect "settings" "Failed to acquire SharePoint token. Set hostname and check permissions."
    else if rest.status ≠ 200 then graphBranch graph columns page pageSize p
    else restSuccess rest columns page pageSize
  else graphBranch graph columns page pageSize p

/-! ### Charts view aggregation (`charts_view`, `views.py` 566-776) -/

/-- Billable bucketing (`views.py` 700-705):
`str(billable_val).lower()` compared exactly against "true" and "false". -/
def billableCategory (v : PyVal) : String :=
  if pyLower (pyStr v) == "true" then "True"
  else if pyLower (pyStr v) == "false" then "False"
  else "Unknown"

/-- Aggregation state of the charts view: the three overall billable-hour
buckets, the month-keyed buckets in insertion order (a `defaultdict`), and
the count of items that passed the author filter. -/
structure ChartAcc where
  bTrue : Rat
  bFalse : Rat
  bUnknown : Rat
  monthly : List (String × (Rat × Rat × Rat))
  totalItems : Nat

/-- The empty aggregation state (`views.py` 644-647). -/
def chartInit : ChartAcc := { bTrue := 0, bFalse := 0, bUnknown := 0, monthly := [], totalItems := 0 }

/-- Add hours to the bucket named by the category. -/
def bumpCat (cat : String) (t : Rat × Rat × Rat) (h : Rat) : Rat × Rat × Rat :=
  if cat == "True" then (t.1 + h, t.2.1, t.2.2)
  else if cat == "False" then (t.1, t.2.1 + h, t.2.2)
  else (t.1, t.2.1, t.2.2 + h)

/-- `monthly_data[month_key][category] += hours` on the `defaultdict`
(`views.py` 711-713). -/
def monthlyAdd (m : List (String × (Rat × Rat × Rat))) (key cat : String) (h : Rat) :
    List (String × (Rat × Rat × Rat)) :=
  if (m.find? (fun e => e.1 == key)).isSome then
    m.map (fun e => if e.1 == key then (e.1, bumpCat cat e.2 h) else e)
  else m ++ [(key, bumpCat cat (0, 0, 0) h)]

/-- Left-pad a numeral with zeros to the given width, as `strftime` does. -/
def padNum (width n : Nat) : String :=
  let s := toString n
  String.mk (List.replicate (width - s.data.length) '0') ++ s

/-- `work_date.strftime('%Y-%m')` (`views.py` 712). -/
def monthKeyOf (d : PyDate) : String := padNum 4 d.year ++ "-" ++ padNum 2 d.month

/-- One iteration of the charts aggregation loop (`views.py` 665-713):
author-filtered items are skipped entirely; otherwise the item's hours join
the overall bucket of its billable category, and additionally the month
bucket when its work date parses. -/
def chartStep (authorFilter : String) (st : ChartAcc) (item : GraphItem) : ChartAcc :=
  let authorName := authorTextOf ((lookupKV item.fields "Author").getD .pnone)
  if authorFilter ≠ "" && !(strContainsSub (pyLower authorName) (pyLower authorFilter)) then st
  else
    let h := hoursContribution ((lookupKV item.fields "Hours").getD (.pint 0))
    let cat := billableCategory ((lookupKV item.fields "Billable").getD (.pstr ""))
    let st1 : ChartAcc :=
      { st with
        totalItems := st.totalItems + 1,
        bTrue := if cat == "True" then st.bTrue + h else st.bTrue,
        bFalse := if cat == "False" then st.bFalse + h else st.bFalse,
        bUnknown := if cat ≠ "True" ∧ cat ≠ "False" then st.bUnknown + h else st.bUnknown }
    match parseChartDate ((lookupKV item.fields "Work_x0020_Date").getD .pnone) with
    | some d => { st1 with monthly := monthlyAdd st1.monthly (monthKeyOf d) cat h }
    | none => st1

/-- The whole charts aggregation (`views.py` 665-713). -/
def chartRun (authorFilter : String) (items : List GraphItem) : ChartAcc :=
  items.foldl (chartStep authorFilter) chartInit

/-- The overall total `sum(billable_hours.values())` (`views.py` 728). -/
def overallTotal (st : ChartAcc) : Rat := st.bTrue + st.bFalse + st.bUnknown

/-- Total hours recorded in a month-keyed bucket list. -/
def monthsTotal (m : List (String × (Rat × Rat × Rat))) : Rat :=
  (m.map (fun e => e.2.1 + e.2.2.1 + e.2.2.2)).sum

/-- The sum over all months of the month's three buckets (the monthly
series' total line, before display rounding). -/
def monthlySum (st : ChartAcc) : Rat := monthsTotal st.monthly

/-- The hours contribution of one charts item (0 whenever the item's hours
value fails to coerce). -/
def itemHours (item : GraphItem) : Rat :=
  hoursContribution ((lookupKV item.fields "Hours").getD (.pint 0))

/-! ### Token acquisition failure (`settings_view` 47-70, `timesheet_list` 249-253) -/

/-- The diagnostic keys collected from a failed MSAL result
(`views.py` 62). -/
def tokenErrKeys : List String :=
  ["error", "error_description", "suberror", "error_codes", "correlation_id", "trace_id"]

/-- One step of the diagnostic collection loop (`views.py` 62-64):
append `f"{key}: {value}"` when the key is present and truthy. -/
def tokenErrStep (result : List (String × PyVal)) (acc : List String) (key : String) :
    List String :=
  match lookupKV result key with
  | some v => if truthy v then acc ++ [key ++ ": " ++ pyStr v] else acc
  | none => acc

/-- The entries `f"{key}: {value}"` collected for the keys present and
truthy in the failed token result (`views.py` 60-64). -/
def tokenErrEntries (result : List (String × PyVal)) : List String :=
  tokenErrKeys.foldl (tokenErrStep result) []

/-- `detail = "; ".join(err) or 'Unknown error'` (`views.py` 65). -/
def tokenErrDetail (result : List (String × PyVal)) : String :=
  let joined := joinWith "; " (tokenErrEntries result)
  if joined = "" then "Unknown error" else joined

/-- Whether the MSAL result carries a truthy `access_token`
(`views.py` 56-57). -/
def tokenPresent (result : List (String × PyVal)) : Bool :=
  match lookupKV result "access_token" with
  | some v => truthy v
  | none => false

/-- The settings-view connection test (`views.py` 54-67): the redirect
target and the message posted for the given MSAL result. -/
def settingsTestResult (result : List (String × PyVal)) : String × String :=
  if tokenPresent result then ("settings", "Connection successful. Token acquired.")
  else ("settings", "Failed to acquire token. " ++ tokenErrDetail result)

/-- The timesheet view's token-acquisition gate (`views.py` 249-253):
`some (target, message)` when the view aborts for a token-less result,
`none` when it proceeds. The message is a fixed string that ignores the
result's diagnostic fields. -/
def timesheetTokenStage (result : List (String × PyVal)) : Option (String × String) :=
  if tokenPresent result then none
  else some ("settings", "Failed to acquire Graph token. Check credentials and API permissions.")

/-! ### Concrete inputs used by counterexamples and witnesses -/

/-- A column-metadata response offering eight visible, preferred,
non-identifier columns. -/
def cdsEight : List ColDef :=
  [⟨"Author", false⟩, ⟨"Work_x0020_Date", false⟩, ⟨"Contractor", false⟩,
   ⟨"CustomerName", false⟩, ⟨"Code", false⟩, ⟨"Hours", false⟩, ⟨"Mileage", false⟩,
   ⟨"Billable", false⟩]

/-- Two chart items: one with five billable hours on a parsable date, one
with minus three billable hours on an unparsable date. -/
def chartItemsNeg : List GraphItem :=
  [⟨PyVal.pstr "1",
    [("Billable", PyVal.pstr "True"), ("Hours", PyVal.pint 5),
     ("Work_x0020_Date", PyVal.pstr "2023-01-15")]⟩,
   ⟨PyVal.pstr "2",
    [("Billable", PyVal.pstr "True"), ("Hours", PyVal.pstr "-3"),
     ("Work_x0020_Date", PyVal.pstr "garbage")]⟩]

/-- A row whose work date is 2023-12-01. -/
def rowDec1 : Row := [("Work_x0020_Date", PyVal.pstr "2023-12-01")]

/-- A row with no work date. -/
def rowNoDate : Row := [("Code", PyVal.pstr "A-2024")]

/-! ## Theorems -/

/-- Helper: `billableCategory` as a propositional case split. -/
theorem billableCategory_eq (v : PyVal) :
    billableCategory v =
      if pyLower (pyStr v) = "true" then "True"
      else if pyLower (pyStr v) = "false" then "False"
      else "Unknown" := by
  unfold billableCategory
  by_cases h1 : pyLower (pyStr v) = "true" <;> by_cases h2 : pyLower (pyStr v) = "false" <;>
    simp [h1, h2]

/-- C4: for all integer `page` and `page_size` query-parameter inputs to the
table view, the clamping of `views.py` 236-237 yields an effective page of
at least 1 and an effective page size between 1 and 100 inclusive. -/
theorem claim_C4_param_clamping (p ps : Int) :
    1 ≤ clampPage p ∧ 1 ≤ clampPageSize ps ∧ clampPageSize ps ≤ 100 := by
  refine ⟨le_max_right p 1, le_min (le_max_right ps 1) (by norm_num), min_le_right _ _⟩

/-- C10: when the SharePoint REST items request succeeds, the view never
reaches a render: building the template context reads `total_hours`, which
is assigned only on the Graph path, so the request raises
`UnboundLocalError` (here at the concrete failing input of a configured
hostname, a usable SharePoint token, and a 200 REST response). -/
theorem claim_C10_rest_success_unbound_local :
    timesheetServe true true ⟨200, "", []⟩ ⟨200, "", []⟩ ["Id"] defaultParams =
      ViewOutcome.unboundLocal "total_hours" := rfl

/-- C1: if a SharePoint hostname is configured (with a usable SharePoint
token) and the REST items request returns a non-success status, the
timesheet request behaves exactly like a request with no hostname
configured — the REST error is never surfaced — and when the subsequent
Graph fetch succeeds the outcome is a normal render. -/
theorem claim_C1_rest_fallback (sp : Bool) (rest : RestResponse) (graph : GraphResponse)
    (schemaCols : List String) (p : QueryParams) (hrest : rest.status ≠ 200) :
    timesheetServe true true rest graph schemaCols p =
        timesheetServe false sp rest graph schemaCols p ∧
      (graph.status = 200 →
        isRender (timesheetServe true true rest graph schemaCols p) = true) := by
  constructor
  · simp [timesheetServe, hrest]
  · intro h200
    simp [timesheetServe, hrest, graphBranch, h200, isRender]

/-- Witness for C1: a concrete 500 REST response with a succeeding Graph
fetch renders, identically to the hostname-less request. -/
theorem claim_C1_rest_fallback_witness :
    timesheetServe true true ⟨500, "Server Error", []⟩ ⟨200, "", []⟩ ["Id"] defaultParams =
        timesheetServe false false ⟨500, "Server Error", []⟩ ⟨200, "", []⟩ ["Id"]
          defaultParams ∧
      isRender (timesheetServe true true ⟨500, "Server Error", []⟩ ⟨200, "", []⟩ ["Id"]
        defaultParams) = true := by
  have h := claim_C1_rest_fallback false ⟨500, "Server Error", []⟩ ⟨200, "", []⟩ ["Id"]
    defaultParams (by decide)
  exact ⟨h.1, h.2 rfl⟩

/-- C5: the chart aggregator buckets the `Billable` field by
case-insensitive exact string comparison: any casing of "true" is billable,
any casing of "false" is non-billable, and anything else — including the
empty string, `None`, and an absent field (which defaults to the empty
string) — is unknown. -/
theorem claim_C5_billable_buckets (fields : List (String × PyVal)) (v : PyVal)
    (hv : (lookupKV fields "Billable").getD (.pstr "") = v) :
    (billableCategory v = "True" ↔ pyLower (pyStr v) = "true") ∧
    (billableCategory v = "False" ↔ pyLower (pyStr v) = "false") ∧
    (pyLower (pyStr v) ≠ "true" → pyLower (pyStr v) ≠ "false" →
      billableCategory v = "Unknown") ∧
    (v = .pnone → billableCategory v = "Unknown") ∧
    (v = .pstr "" → billableCategory v = "Unknown") ∧
    (lookupKV fields "Billable" = none → billableCategory v = "Unknown") := by
  have hcat := billableCategory_eq v
  refine ⟨?_, ?_, ?_, ?_, ?_, ?_⟩
  · rw [hcat]
    by_cases h1 : pyLower (pyStr v) = "true" <;> by_cases h2 : pyLower (pyStr v) = "false" <;>
      simp [h1, h2]
  · rw [hcat]
    by_cases h1 : pyLower (pyStr v) = "true" <;> by_cases h2 : pyLower (pyStr v) = "false"
    · exact absurd (h1.symm.trans h2) (by decide)
    · simp [h1, h2]
    · simp [h1, h2]
    · simp [h1, h2]
  · intro hn1 hn2; rw [hcat]; simp [hn1, hn2]
  · intro h; subst h; rfl
  · intro h; subst h; rfl
  · intro h
    have hstr : v = .pstr "" := by rw [← hv, h]; rfl
    subst hstr; rfl

/-- Witness for C5: "TRUE" is billable, `None` is unknown. -/
theorem claim_C5_billable_buckets_witness :
    billableCategory (PyVal.pstr "TRUE") = "True" ∧
      billableCategory PyVal.pnone = "Unknown" :=
  ⟨(claim_C5_billable_buckets [("Billable", PyVal.pstr "TRUE")] (PyVal.pstr "TRUE") rfl).1.mpr
      (by decide),
   (claim_C5_billable_buckets [("Billable", PyVal.pnone)] PyVal.pnone rfl).2.2.2.1 rfl⟩

/-- Helper: the empty string is not a parsable `%Y-%m-%d` date. -/
theorem pyStrptimeYMD_empty : pyStrptimeYMD "" = none := rfl

/-- Helper: `date` comparison is irreflexive. -/
theorem dateLt_irrefl (d : PyDate) : dateLt d d = false := by
  simp [dateLt]

/-- C3: in the Graph-path date-range filter, boundaries are inclusive — a
row dated inside the closed range, in particular exactly on `date_from` or
`date_to`, is retained — and a row whose work date is absent or unparsable
is retained if and only if both date filters are empty. -/
theorem claim_C3_date_range (dateFrom dateTo : String) (rows : List Row) (row : Row)
    (hmem : row ∈ rows) :
    (∀ d fd td, rowWorkDate row = some d → pyStrptimeYMD dateFrom = some fd →
      pyStrptimeYMD dateTo = some td → dateLt d fd = false → dateLt td d = false →
      row ∈ applyDateRange dateFrom dateTo rows) ∧
    (∀ d, rowWorkDate row = some d → pyStrptimeYMD dateFrom = some d → dateTo = "" →
      row ∈ applyDateRange dateFrom dateTo rows) ∧
    (∀ d, rowWorkDate row = some d → pyStrptimeYMD dateTo = some d → dateFrom = "" →
      row ∈ applyDateRange dateFrom dateTo rows) ∧
    (rowWorkDate row = none →
      (row ∈ applyDateRange dateFrom dateTo rows ↔ dateFrom = "" ∧ dateTo = "")) := by
  refine ⟨?_, ?_, ?_, ?_⟩
  · intro d fd td hd hf ht h1 h2
    have hne : dateFrom ≠ "" := by
      intro h; rw [h, pyStrptimeYMD_empty] at hf; cases hf
    have htne : dateTo ≠ "" := by
      intro h; rw [h, pyStrptimeYMD_empty] at ht; cases ht
    rw [applyDateRange, if_pos (Or.inl hne)]
    refine List.mem_filter.mpr ⟨hmem, ?_⟩
    simp [filterByDate, hd, hf, ht, h1, h2, hne, htne]
  · intro d hd hf hTo
    have hne : dateFrom ≠ "" := by
      intro h; rw [h, pyStrptimeYMD_empty] at hf; cases hf
    rw [applyDateRange, if_pos (Or.inl hne)]
    refine List.mem_filter.mpr ⟨hmem, ?_⟩
    simp [filterByDate, hd, hf, hTo, hne, dateLt_irrefl]
  · intro d hd ht hFrom
    have htne : dateTo ≠ "" := by
      intro h; rw [h, pyStrptimeYMD_empty] at ht; cases ht
    rw [applyDateRange, if_pos (Or.inr htne)]
    refine List.mem_filter.mpr ⟨hmem, ?_⟩
    simp [filterByDate, hd, ht, hFrom, htne, dateLt_irrefl]
  · intro hnone
    by_cases hb : dateFrom = "" ∧ dateTo = ""
    · rw [hb.1, hb.2]
      simpa [applyDateRange] using hmem
    · have hcond : dateFrom ≠ "" ∨ dateTo ≠ "" := by
        by_cases h1 : dateFrom = ""
        · exact Or.inr (fun h2 => hb ⟨h1, h2⟩)
        · exact Or.inl h1
      rw [applyDateRange, if_pos hcond]
      constructor
      · intro hf
        have hpred := (List.mem_filter.mp hf).2
        simp [filterByDate, hnone] at hpred
        exact hpred
      · intro hboth
        exact absurd hboth hb

/-- Witness for C3: a row dated 2023-12-01 survives the range
[2023-12-01, 2023-12-31], and a dateless row survives exactly the empty
filter. -/
theorem claim_C3_date_range_witness :
    rowDec1 ∈ applyDateRange "2023-12-01" "2023-12-31" [rowDec1] ∧
      (rowNoDate ∈ applyDateRange "" "" [rowNoDate] ↔
        ("" : String) = "" ∧ ("" : String) = "") :=
  ⟨(claim_C3_date_range "2023-12-01" "2023-12-31" [rowDec1] rowDec1
      (List.mem_singleton.mpr rfl)).1 ⟨2023, 12, 1⟩ ⟨2023, 12, 1⟩ ⟨2023, 12, 31⟩
      rfl rfl rfl rfl rfl,
   (claim_C3_date_range "" "" [rowNoDate] rowNoDate (List.mem_singleton.mpr rfl)).2.2.2 rfl⟩

/-- Helper: `total_hours` is the sum of the per-row contributions. -/
theorem totalHours_eq_sum (rows : List Row) :
    totalHours rows = (rows.map (fun r => hoursContribution (rowHoursVal r))).sum := by
  unfold totalHours
  suffices h : ∀ a : Rat, rows.foldl (fun acc r => acc + hoursContribution (rowHoursVal r)) a =
      a + (rows.map (fun r => hoursContribution (rowHoursVal r))).sum by
    simpa using h 0
  induction rows with
  | nil => intro a; simp
  | cons r rs ih => intro a; simp [ih, add_assoc]

/-- Helper: inserting a row changes the aggregate by exactly its
contribution. -/
theorem totalHours_insert (pre suf : List Row) (r : Row) :
    totalHours (pre ++ r :: suf) = totalHours (pre ++ suf) + hoursContribution (rowHoursVal r) := by
  rw [totalHours_eq_sum, totalHours_eq_sum]
  simp [List.map_append, List.sum_append]
  ring

/-- C6: the hours aggregate over the filtered rows sums ints, floats and
numeric-looking strings, silently skips `None` and non-numeric strings
anywhere in the list, and on rows with hours 3, "4.5", "bad", `None` it
yields 7.5. -/
theorem claim_C6_hours_aggregate (pre suf : List Row) (r : Row) :
    totalHours [[("Hours", PyVal.pint 3)], [("Hours", PyVal.pstr "4.5")],
        [("Hours", PyVal.pstr "bad")], [("Hours", PyVal.pnone)]] = 15 / 2 ∧
    (rowHoursVal r = .pnone → totalHours (pre ++ r :: suf) = totalHours (pre ++ suf)) ∧
    (∀ s, rowHoursVal r = .pstr s → pyFloat (pyStrip s) = none →
      totalHours (pre ++ r :: suf) = totalHours (pre ++ suf)) ∧
    (∀ n, rowHoursVal r = .pint n →
      totalHours (pre ++ r :: suf) = totalHours (pre ++ suf) + n) ∧
    (∀ q, rowHoursVal r = .pfloat q →
      totalHours (pre ++ r :: suf) = totalHours (pre ++ suf) + q) ∧
    (∀ s q, rowHoursVal r = .pstr s → pyStrip s ≠ "" → pyFloat (pyStrip s) = some q →
      totalHours (pre ++ r :: suf) = totalHours (pre ++ suf) + q) := by
  refine ⟨?_, ?_, ?_, ?_, ?_, ?_⟩
  · have e1 : pyStrip "4.5" = "4.5" := rfl
    have e2 : pyStrip "bad" = "bad" := rfl
    have e3 : pyFloat "4.5" = some (((45 : Int) : Rat) / ((10 : Nat) : Rat)) := rfl
    have e4 : pyFloat "bad" = none := rfl
    rw [totalHours_eq_sum]
    simp [rowHoursVal, lookupKV, hoursContribution, e1, e2, e3, e4]
    norm_num
  · intro h; rw [totalHours_insert, h]; simp [hoursContribution]
  · intro s hs hf
    rw [totalHours_insert, hs]
    by_cases hne : pyStrip s = "" <;> simp [hoursContribution, hf, hne]
  · intro n hn; rw [totalHours_insert, hn]; rfl
  · intro q hq; rw [totalHours_insert, hq]; rfl
  · intro s q hs hne hq
    rw [totalHours_insert, hs]
    simp [hoursContribution, hne, hq]

/-- Witness for C6: a `None` hours row inserted between two rows leaves the
aggregate unchanged. -/
theorem claim_C6_hours_aggregate_witness :
    totalHours [[("Hours", PyVal.pint 3)], [("Hours", PyVal.pnone)],
        [("Hours", PyVal.pint 4)]] =
      totalHours [[("Hours", PyVal.pint 3)], [("Hours", PyVal.pint 4)]] :=
  (claim_C6_hours_aggregate [[("Hours", PyVal.pint 3)]] [[("Hours", PyVal.pint 4)]]
    [("Hours", PyVal.pnone)]).2.1 rfl

/-- Helper: the empty pattern occurs in any text. -/
theorem subAt_nil (l : List Char) : subAt [] l = true := by
  cases l <;> simp [subAt, listPrefixAt]

/-- Helper: a list is a prefix of itself followed by anything. -/
theorem listPrefixAt_self_append (p rest : List Char) : listPrefixAt p (p ++ rest) = true := by
  induction p with
  | nil => rfl
  | cons c cs ih => simp [listPrefixAt, ih]

/-- Helper: a pattern occurs at the head of itself followed by anything. -/
theorem subAt_here (p rest : List Char) : subAt p (p ++ rest) = true := by
  cases p with
  | nil => exact subAt_nil rest
  | cons c cs =>
    have h1 : listPrefixAt (c :: cs) ((c :: cs) ++ rest) = true :=
      listPrefixAt_self_append (c :: cs) rest
    show (listPrefixAt (c :: cs) ((c :: cs) ++ rest) || subAt (c :: cs) (cs ++ rest)) = true
    rw [h1, Bool.true_or]

/-- Helper: occurrence is preserved by prepending text. -/
theorem subAt_append_left (pre : List Char) {p l : List Char} (h : subAt p l = true) :
    subAt p (pre ++ l) = true := by
  induction pre with
  | nil => exact h
  | cons c cs ih => simp [subAt, ih]

/-- Helper: a non-empty pattern only occurs in non-empty text. -/
theorem subAt_ne_nil {p l : List Char} (hp : p ≠ []) (h : subAt p l = true) : l ≠ [] := by
  intro hl
  subst hl
  cases p with
  | nil => exact hp rfl
  | cons c cs => simp [subAt, listPrefixAt] at h

/-- Helper: every part occurs in the join. -/
theorem subAt_join_mem (sep : String) (xs : List String) (x : String) (hx : x ∈ xs) :
    subAt x.data (joinWith sep xs).data = true := by
  induction xs with
  | nil => cases hx
  | cons y ys ih =>
    cases hx with
    | head =>
      cases ys with
      | nil => simpa using subAt_here x.data []
      | cons z zs =>
        have hdata : (x ++ sep ++ joinWith sep (z :: zs)).data =
            x.data ++ (sep.data ++ (joinWith sep (z :: zs)).data) := by
          show (x.data ++ sep.data) ++ (joinWith sep (z :: zs)).data = _
          rw [List.append_assoc]
        rw [joinWith, hdata]
        exact subAt_here x.data _
    | tail _ h2 =>
      cases ys with
      | nil => cases h2
      | cons z zs =>
        have ih2 := ih h2
        rw [joinWith]
        exact subAt_append_left (y ++ sep).data ih2

/-- Helper: membership is preserved by the diagnostic collection loop. -/
theorem mem_foldl_tokenErrStep (result : List (String × PyVal)) (keys : List String)
    (acc : List String) (x : String) (hx : x ∈ acc) :
    x ∈ keys.foldl (tokenErrStep result) acc := by
  induction keys generalizing acc with
  | nil => exact hx
  | cons k ks ih =>
    rw [List.foldl_cons]
    apply ih
    unfold tokenErrStep
    split
    · split
      · exact List.mem_append_left _ hx
      · exact hx
    · exact hx

/-- Helper: a present, truthy diagnostic key contributes its entry. -/
theorem mem_tokenErrEntries (result : List (String × PyVal)) (key : String) (v : PyVal)
    (hk : key ∈ tokenErrKeys) (hv : lookupKV result key = some v) (ht : truthy v = true) :
    (key ++ ": " ++ pyStr v) ∈ tokenErrEntries result := by
  unfold tokenErrEntries
  suffices h : ∀ (keys : List String) (acc : List String), key ∈ keys →
      (key ++ ": " ++ pyStr v) ∈ keys.foldl (tokenErrStep result) acc from
    h tokenErrKeys [] hk
  intro keys
  induction keys with
  | nil => intro acc h; cases h
  | cons k ks ih =>
    intro acc hkmem
    rw [List.foldl_cons]
    cases hkmem with
    | head =>
      apply mem_foldl_tokenErrStep
      unfold tokenErrStep
      rw [hv]
      simp [ht]
    | tail _ h2 => exact ih (tokenErrStep result acc k) h2

/-- C8 (amended): when token acquisition fails, the settings-screen
connection test redirects to settings with a message carrying every
diagnostic field the provider returned, joined into one detail string (in
particular, for `{error: "invalid_client"}` the message contains
"invalid_client"); the timesheet view also redirects to settings, but its
message is a fixed hint that omits the provider's diagnostic fields. -/
theorem claim_C8_token_failure (result : List (String × PyVal)) (key : String) (v : PyVal)
    (htoken : tokenPresent result = false) (hk : key ∈ tokenErrKeys)
    (hv : lookupKV result key = some v) (ht : truthy v = true) :
    (settingsTestResult result).1 = "settings" ∧
    strContainsSub (settingsTestResult result).2 (key ++ ": " ++ pyStr v) = true ∧
    strContainsSub (settingsTestResult [("error", PyVal.pstr "invalid_client")]).2
      "invalid_client" = true ∧
    timesheetTokenStage result =
      some ("settings",
        "Failed to acquire Graph token. Check credentials and API permissions.") := by
  have hentry : (key ++ ": " ++ pyStr v) ∈ tokenErrEntries result :=
    mem_tokenErrEntries result key v hk hv ht
  have hkdata : key.data ≠ [] := by
    fin_cases hk <;> simp
  have hedata : (key ++ ": " ++ pyStr v).data ≠ [] := by
    have hshape : (key ++ ": " ++ pyStr v).data =
        key.data ++ (": ".data ++ (pyStr v).data) := by
      show (key.data ++ ": ".data) ++ (pyStr v).data = _
      rw [List.append_assoc]
    rw [hshape]
    intro h
    exact hkdata (List.append_eq_nil.mp h).1
  have hsub : subAt (key ++ ": " ++ pyStr v).data
      (joinWith "; " (tokenErrEntries result)).data = true :=
    subAt_join_mem "; " (tokenErrEntries result) _ hentry
  have hjoined : joinWith "; " (tokenErrEntries result) ≠ "" := by
    intro h
    exact subAt_ne_nil hedata hsub (by rw [h])
  have hdetail : tokenErrDetail result = joinWith "; " (tokenErrEntries result) := by
    unfold tokenErrDetail
    rw [if_neg hjoined]
  refine ⟨?_, ?_, ?_, ?_⟩
  · simp [settingsTestResult, htoken]
  · simp only [settingsTestResult, htoken, Bool.false_eq_true, if_false, hdetail]
    unfold strContainsSub
    exact subAt_append_left _ hsub
  · decide
  · simp [timesheetTokenStage, htoken]

/-- Witness for C8 at the `{error: "invalid_client"}` result. -/
theorem claim_C8_token_failure_witness :
    (settingsTestResult [("error", PyVal.pstr "invalid_client")]).1 = "settings" ∧
      strContainsSub (settingsTestResult [("error", PyVal.pstr "invalid_client")]).2
        ("error" ++ ": " ++ pyStr (PyVal.pstr "invalid_client")) = true := by
  have h := claim_C8_token_failure [("error", PyVal.pstr "invalid_client")] "error"
    (PyVal.pstr "invalid_client") rfl (by decide) rfl rfl
  exact ⟨h.1, h.2.1⟩

/-- C8 counterexample: at the timesheet view, a token failure with result
`{error: "invalid_client"}` produces the fixed message, which does not
contain "invalid_client" — so the claim that the user-facing message always
carries the provider's diagnostics is false as stated. -/
theorem claim_C8_counterexample :
    timesheetTokenStage [("error", PyVal.pstr "invalid_client")] =
      some ("settings",
        "Failed to acquire Graph token. Check credentials and API permissions.") ∧
    strContainsSub "Failed to acquire Graph token. Check credentials and API permissions."
      "invalid_client" = false :=
  ⟨rfl, by decide⟩

/-- Helper: a fold whose step either keeps the accumulator or appends one
new element preserves `Nodup`. -/
theorem foldl_nodup_of_step {β : Type} (f : List String → β → List String)
    (hf : ∀ acc x, f acc x = acc ∨ ∃ a, a ∉ acc ∧ f acc x = acc ++ [a])
    (l : List β) (acc : List String) (hacc : acc.Nodup) : (l.foldl f acc).Nodup := by
  induction l generalizing acc with
  | nil => exact hacc
  | cons x xs ih =>
    rw [List.foldl_cons]
    apply ih
    rcases hf acc x with h | ⟨a, ha, h⟩
    · rw [h]; exact hacc
    · rw [h]
      simp [List.nodup_append, hacc, ha]

/-- Helper: such a fold never loses accumulated elements. -/
theorem foldl_mem_of_step {β : Type} (f : List String → β → List String)
    (hf : ∀ acc x, f acc x = acc ∨ ∃ a, a ∉ acc ∧ f acc x = acc ++ [a])
    (l : List β) (acc : List String) (y : String) (hy : y ∈ acc) : y ∈ l.foldl f acc := by
  induction l generalizing acc with
  | nil => exact hy
  | cons x xs ih =>
    rw [List.foldl_cons]
    apply ih
    rcases hf acc x with h | ⟨a, _, h⟩ <;> rw [h]
    · exact hy
    · exact List.mem_append_left _ hy

/-- Helper: the step of the `available`-names fold keeps or freshly
appends. -/
theorem availStepSpec (acc : List String) (c : ColDef) :
    (if c.hidden then acc else if acc.contains c.name then acc else acc ++ [c.name]) = acc ∨
      ∃ a, a ∉ acc ∧
        (if c.hidden then acc else if acc.contains c.name then acc else acc ++ [c.name]) =
          acc ++ [a] := by
  by_cases h1 : c.hidden = true
  · exact Or.inl (by simp [h1])
  · by_cases h2 : c.name ∈ acc
    · exact Or.inl (by simp [h1, h2])
    · exact Or.inr ⟨c.name, h2, by simp [h1, h2]⟩

/-- Helper: the step of the preference pass keeps or freshly appends. -/
theorem step1Spec (avail acc : List String) (key : String) :
    (if avail.contains key && !acc.contains key then acc ++ [key] else acc) = acc ∨
      ∃ a, a ∉ acc ∧
        (if avail.contains key && !acc.contains key then acc ++ [key] else acc) =
          acc ++ [a] := by
  by_cases h1 : key ∈ avail
  · by_cases h2 : key ∈ acc
    · exact Or.inl (by simp [h2])
    · exact Or.inr ⟨key, h2, by simp [h1, h2]⟩
  · exact Or.inl (by simp [h1])

/-- Helper: the step of the leftover pass keeps or freshly appends. -/
theorem step2Spec (acc : List String) (n : String) :
    (if !acc.contains n && !strStartsWith n "_" && !strEndsWith (pyLower n) "type" &&
        !(pyLower n == "type") then acc ++ [n] else acc) = acc ∨
      ∃ a, a ∉ acc ∧
        (if !acc.contains n && !strStartsWith n "_" && !strEndsWith (pyLower n) "type" &&
            !(pyLower n == "type") then acc ++ [n] else acc) = acc ++ [a] := by
  by_cases h0 : n ∈ acc
  · exact Or.inl (by simp [h0])
  · by_cases hA : strStartsWith n "_" = true
    · exact Or.inl (by simp [hA])
    · by_cases hB : strEndsWith (pyLower n) "type" = true
      · exact Or.inl (by simp [hB])
      · by_cases hC : (pyLower n == "type") = true
        · exact Or.inl (by simp [hC])
        · exact Or.inr ⟨n, h0, by simp [h0, hA, hB, hC]⟩

/-- Helper: the available column names are duplicate-free. -/
theorem availableNames_nodup (cds : List ColDef) : (availableNames cds).Nodup := by
  unfold availableNames
  exact foldl_nodup_of_step _ availStepSpec cds [] List.nodup_nil

/-- Helper: the preference pass yields a duplicate-free list. -/
theorem schemaStep1_nodup (avail : List String) : (schemaStep1 avail).Nodup := by
  unfold schemaStep1
  exact foldl_nodup_of_step _ (step1Spec avail) preferredColumns [] List.nodup_nil

/-- Helper: the leftover pass preserves duplicate-freeness. -/
theorem schemaStep2_nodup (avail acc0 : List String) (h : acc0.Nodup) :
    (schemaStep2 avail acc0).Nodup := by
  unfold schemaStep2
  exact foldl_nodup_of_step _ step2Spec avail acc0 h

/-- Helper: the leftover pass keeps everything already chosen. -/
theorem mem_schemaStep2_mono (avail acc0 : List String) (x : String) (hx : x ∈ acc0) :
    x ∈ schemaStep2 avail acc0 := by
  unfold schemaStep2
  exact foldl_mem_of_step _ step2Spec avail acc0 x hx

/-- Helper: an available preferred column is chosen by the preference
pass. -/
theorem mem_schemaStep1_of (avail : List String) (key : String) (hk : key ∈ preferredColumns)
    (ha : key ∈ avail) : key ∈ schemaStep1 avail := by
  unfold schemaStep1
  suffices h : ∀ (keys : List String) (acc : List String), key ∈ keys →
      key ∈ keys.foldl
        (fun acc key => if avail.contains key && !acc.contains key then acc ++ [key] else acc)
        acc from h preferredColumns [] hk
  intro keys
  induction keys with
  | nil => intro acc h; cases h
  | cons k ks ih =>
    intro acc hmem
    rw [List.foldl_cons]
    cases hmem with
    | head =>
      apply foldl_mem_of_step _ (step1Spec avail)
      by_cases hacc : key ∈ acc
      · rcases step1Spec avail acc key with h | ⟨a, _, h⟩ <;> rw [h]
        · exact hacc
        · exact List.mem_append_left _ hacc
      · have hc : (avail.contains key && !acc.contains key) = true := by
          simp [ha, hacc]
        rw [if_pos hc]
        exact List.mem_append_right _ (List.mem_singleton.mpr rfl)
    | tail _ h2 => exact ih _ h2

/-- Helper: an available column passing the underscore/type screens is
chosen by the leftover pass. -/
theorem mem_schemaStep2_of (avail acc0 : List String) (x : String) (hx : x ∈ avail)
    (h1 : (!strStartsWith x "_") = true) (h2 : (!strEndsWith (pyLower x) "type") = true)
    (h3 : (!(pyLower x == "type")) = true) : x ∈ schemaStep2 avail acc0 := by
  unfold schemaStep2
  suffices h : ∀ (names : List String) (acc : List String), x ∈ names →
      x ∈ names.foldl
        (fun acc n =>
          if !acc.contains n && !strStartsWith n "_" && !strEndsWith (pyLower n) "type" &&
              !(pyLower n == "type") then acc ++ [n] else acc)
        acc from h avail acc0 hx
  intro names
  induction names with
  | nil => intro acc h; cases h
  | cons k ks ih =>
    intro acc hmem
    rw [List.foldl_cons]
    cases hmem with
    | head =>
      apply foldl_mem_of_step _ step2Spec
      by_cases hacc : x ∈ acc
      · rcases step2Spec acc x with h | ⟨a, _, h⟩ <;> rw [h]
        · exact hacc
        · exact List.mem_append_left _ hacc
      · have hc : (!acc.contains x && !strStartsWith x "_" &&
            !strEndsWith (pyLower x) "type" && !(pyLower x == "type")) = true := by
          simp [hacc, h1, h2, h3]
        rw [if_pos hc]
        exact List.mem_append_right _ (List.mem_singleton.mpr rfl)
    | tail _ hm2 => exact ih _ hm2

/-- Helper: every eligible non-identifier column survives to the combined
selector output. -/
theorem mem_s2_of_eligible (cds : List ColDef) (x : String) (hx : x ∈ eligibleNonId cds) :
    x ∈ schemaStep2 (availableNames cds) (schemaStep1 (availableNames cds)) := by
  have hav : x ∈ availableNames cds := (List.mem_filter.mp hx).1
  have hcond := (List.mem_filter.mp hx).2
  simp only [Bool.and_eq_true, Bool.or_eq_true] at hcond
  obtain ⟨hor, _⟩ := hcond
  cases hor with
  | inl hpref =>
    have hp : x ∈ preferredColumns := by simpa using hpref
    exact mem_schemaStep2_mono _ _ _ (mem_schemaStep1_of _ x hp hav)
  | inr hflt => exact mem_schemaStep2_of _ _ x hav hflt.1.1 hflt.1.2 hflt.2

/-- Helper: forcing the identifier first always yields `Id` consed onto the
identifier-free tail of the selector output. -/
theorem schemaColumnsOf_eq (cds : List ColDef) :
    schemaColumnsOf cds =
      "Id" :: (schemaStep2 (availableNames cds) (schemaStep1 (availableNames cds))).filter
        (fun c => c ≠ "Id") := by
  unfold schemaColumnsOf
  by_cases h : (schemaStep2 (availableNames cds) (schemaStep1 (availableNames cds))).contains
      "Id" = true
  · rw [if_pos h]
  · rw [if_neg h]
    have hnot : "Id" ∉ schemaStep2 (availableNames cds) (schemaStep1 (availableNames cds)) := by
      simpa using h
    congr 1
    symm
    apply List.filter_eq_self.mpr
    intro a ha
    simp only [ne_eq, decide_eq_true_eq]
    exact fun he => hnot (he ▸ ha)

/-- C2 (amended): the displayed column list always has `Id` first and
exactly once, contains no duplicates, and has length at most 8 — the forced
identifier counts against the 8-column truncation budget — and whenever at
least 7 eligible non-identifier columns are available it carries exactly 7
display columns in addition to the identifier. -/
theorem claim_C2_schema_columns (cds : List ColDef) :
    (displayColumns cds).head? = some "Id" ∧
    (displayColumns cds).count "Id" = 1 ∧
    (displayColumns cds).Nodup ∧
    (displayColumns cds).length ≤ 8 ∧
    (7 ≤ (eligibleNonId cds).length →
      (displayColumns cds).length = 8 ∧
        ((displayColumns cds).filter (fun c => c ≠ "Id")).length = 7) := by
  have hsc := schemaColumnsOf_eq cds
  have hdc : displayColumns cds =
      "Id" :: ((schemaStep2 (availableNames cds) (schemaStep1 (availableNames cds))).filter
        (fun c => c ≠ "Id")).take 7 := by
    unfold displayColumns
    rw [hsc]
    rfl
  set rest := (schemaStep2 (availableNames cds) (schemaStep1 (availableNames cds))).filter
    (fun c => c ≠ "Id") with hrest
  have hIdrest : "Id" ∉ rest := by
    intro h
    have := (List.mem_filter.mp h).2
    simp at this
  have hIdtake : "Id" ∉ rest.take 7 := fun h => hIdrest ((List.take_sublist 7 rest).subset h)
  have hrestnodup : rest.Nodup :=
    (schemaStep2_nodup _ _ (schemaStep1_nodup _)).filter _
  refine ⟨?_, ?_, ?_, ?_, ?_⟩
  · rw [hdc]; rfl
  · rw [hdc, List.count_cons]
    simp [List.count_eq_zero.mpr hIdtake]
  · rw [hdc]
    exact List.nodup_cons.mpr ⟨hIdtake, List.Nodup.sublist (List.take_sublist 7 rest) hrestnodup⟩
  · rw [hdc]
    have := List.length_take_le 7 rest
    simp only [List.length_cons]
    omega
  · intro h7
    have hsub : eligibleNonId cds ⊆ rest := by
      intro x hx
      have h2 := mem_s2_of_eligible cds x hx
      have hxne : x ≠ "Id" := by
        have hc := (List.mem_filter.mp hx).2
        simp only [Bool.and_eq_true, decide_eq_true_eq] at hc
        exact hc.2
      exact List.mem_filter.mpr ⟨h2, by simp [hxne]⟩
    have hel_nodup : (eligibleNonId cds).Nodup := (availableNames_nodup cds).filter _
    have hlen : 7 ≤ rest.length :=
      le_trans h7 (List.subperm_of_subset hel_nodup hsub).length_le
    have htlen : (rest.take 7).length = 7 := by
      rw [List.length_take]
      omega
    constructor
    · rw [hdc]
      simp [htlen]
    · rw [hdc]
      have hfeq : (rest.take 7).filter (fun c => c ≠ "Id") = rest.take 7 :=
        List.filter_eq_self.mpr (fun a ha => by
          simp only [ne_eq, decide_eq_true_eq]
          exact fun he => hIdtake (he ▸ ha))
      rw [List.filter_cons, if_neg (by decide), hfeq]
      exact htlen

/-- Witness for C2 at a metadata response with eight eligible
non-identifier columns. -/
theorem claim_C2_schema_columns_witness :
    (displayColumns cdsEight).count "Id" = 1 ∧ (displayColumns cdsEight).length = 8 :=
  ⟨(claim_C2_schema_columns cdsEight).2.1,
   ((claim_C2_schema_columns cdsEight).2.2.2.2 (by decide)).1⟩

/-- C2 counterexample: with eight eligible non-identifier columns
available, the display list keeps only 7 of them beside `Id` — the claim
that the identifier does not count against the 8-column display budget is
false as stated. -/
theorem claim_C2_counterexample :
    8 ≤ (eligibleNonId cdsEight).length ∧
      ¬((displayColumns cdsEight).filter (fun c => c ≠ "Id")).length = 8 := by
  constructor
  · decide
  · decide

/-- Helper: the sort comparator is transitive. -/
theorem rowLe_trans (sortBy : String) (desc : Bool) :
    ∀ a b c : Row, rowLe sortBy desc a b = true → rowLe sortBy desc b c = true →
      rowLe sortBy desc a c = true := by
  intro a b c h1 h2
  cases desc
  · simp [rowLe] at h1 h2 ⊢
    exact le_trans h1 h2
  · simp [rowLe] at h1 h2 ⊢
    exact le_trans h2 h1

/-- Helper: the sort comparator is total. -/
theorem rowLe_total (sortBy : String) (desc : Bool) :
    ∀ a b : Row, (rowLe sortBy desc a b || rowLe sortBy desc b a) = true := by
  intro a b
  cases desc <;> simp [rowLe] <;> exact le_total _ _

/-- C7: sorting compares the lowercased stringified values of the requested
column — ascending unless descending is requested —, is a no-op when the
sort column is not among the displayed columns, and is stable in both
directions: for every key value, the rows carrying that key keep their
original relative order. -/
theorem claim_C7_sorting (sortBy : String) (desc : Bool) (columns : List String)
    (rows : List Row) :
    (sortBy ∉ columns → sortRows sortBy desc columns rows = rows) ∧
    (sortBy ∈ columns → desc = false →
      (sortRows sortBy desc columns rows).Pairwise
        (fun a b => sortKeyOf sortBy a ≤ sortKeyOf sortBy b)) ∧
    (sortBy ∈ columns → desc = true →
      (sortRows sortBy desc columns rows).Pairwise
        (fun a b => sortKeyOf sortBy b ≤ sortKeyOf sortBy a)) ∧
    (∀ k, (sortRows sortBy desc columns rows).filter (fun r => sortKeyOf sortBy r == k) =
      rows.filter (fun r => sortKeyOf sortBy r == k)) := by
  refine ⟨?_, ?_, ?_, ?_⟩
  · intro h
    unfold sortRows
    rw [if_neg (fun hand => h hand.1)]
  · intro hmem hdesc
    subst hdesc
    unfold sortRows
    by_cases he : rows.isEmpty = false
    · rw [if_pos ⟨hmem, he⟩]
      have hs := List.sorted_mergeSort (rowLe_trans sortBy false) (rowLe_total sortBy false) rows
      exact hs.imp (fun h => by simpa [rowLe] using h)
    · rw [if_neg (fun hand => he hand.2)]
      have h1 : rows.isEmpty = true := by revert he; cases rows.isEmpty <;> simp
      rw [List.isEmpty_iff.mp h1]
      exact List.Pairwise.nil
  · intro hmem hdesc
    subst hdesc
    unfold sortRows
    by_cases he : rows.isEmpty = false
    · rw [if_pos ⟨hmem, he⟩]
      have hs := List.sorted_mergeSort (rowLe_trans sortBy true) (rowLe_total sortBy true) rows
      exact hs.imp (fun h => by simpa [rowLe] using h)
    · rw [if_neg (fun hand => he hand.2)]
      have h1 : rows.isEmpty = true := by revert he; cases rows.isEmpty <;> simp
      rw [List.isEmpty_iff.mp h1]
      exact List.Pairwise.nil
  · intro k
    unfold sortRows
    by_cases hc : sortBy ∈ columns ∧ rows.isEmpty = false
    · rw [if_pos hc]
      have hSle : (rows.filter (fun r => sortKeyOf sortBy r == k)).Pairwise
          (fun a b => rowLe sortBy desc a b = true) := by
        apply List.pairwise_of_forall_mem_list
        intro a ha b hb
        have hak : sortKeyOf sortBy a = k := by simpa using (List.mem_filter.mp ha).2
        have hbk : sortKeyOf sortBy b = k := by simpa using (List.mem_filter.mp hb).2
        cases desc <;> simp [rowLe, hak, hbk]
      have hSsub : (rows.filter (fun r => sortKeyOf sortBy r == k)).Sublist
          (rows.mergeSort (rowLe sortBy desc)) :=
        List.sublist_mergeSort (rowLe_trans sortBy desc) (rowLe_total sortBy desc) hSle
          (List.filter_sublist rows)
      have hSfilter : (rows.filter (fun r => sortKeyOf sortBy r == k)).filter
          (fun r => sortKeyOf sortBy r == k) = rows.filter (fun r => sortKeyOf sortBy r == k) :=
        List.filter_eq_self.mpr (fun a ha => (List.mem_filter.mp ha).2)
      have hsub2 : (rows.filter (fun r => sortKeyOf sortBy r == k)).Sublist
          ((rows.mergeSort (rowLe sortBy desc)).filter (fun r => sortKeyOf sortBy r == k)) := by
        have h := hSsub.filter (fun r => sortKeyOf sortBy r == k)
        rwa [hSfilter] at h
      have hperm : ((rows.mergeSort (rowLe sortBy desc)).filter
          (fun r => sortKeyOf sortBy r == k)).Perm
            (rows.filter (fun r => sortKeyOf sortBy r == k)) :=
        (List.mergeSort_perm rows _).filter _
      have hlen : (rows.filter (fun r => sortKeyOf sortBy r == k)).length =
          ((rows.mergeSort (rowLe sortBy desc)).filter
            (fun r => sortKeyOf sortBy r == k)).length := by
        rw [hperm.length_eq]
      exact (hsub2.eq_of_length hlen).symm
    · rw [if_neg hc]

/-- Witness for C7: an undisplayed sort column leaves rows untouched; a
displayed one yields a sorted result. -/
theorem claim_C7_sorting_witness :
    sortRows "Missing" false ["Id"] [rowDec1] = [rowDec1] ∧
      (sortRows "Id" false ["Id"] [rowDec1, rowNoDate]).Pairwise
        (fun a b => sortKeyOf "Id" a ≤ sortKeyOf "Id" b) :=
  ⟨(claim_C7_sorting "Missing" false ["Id"] [rowDec1]).1 (by decide),
   (claim_C7_sorting "Id" false ["Id"] [rowDec1, rowNoDate]).2.1 (by decide) rfl⟩

/-- Helper: bumping a bucket raises the bucket triple's sum by the hours. -/
theorem bumpCat_total (cat : String) (t : Rat × Rat × Rat) (h : Rat) :
    (bumpCat cat t h).1 + (bumpCat cat t h).2.1 + (bumpCat cat t h).2.2 =
      t.1 + t.2.1 + t.2.2 + h := by
  unfold bumpCat
  by_cases h1 : (cat == "True") = true <;> by_cases h2 : (cat == "False") = true <;>
    simp [h1, h2] <;> ring

/-- Helper: a month update skips a head entry with a different key. -/
theorem monthlyAdd_cons_of_ne (e : String × (Rat × Rat × Rat))
    (rest : List (String × (Rat × Rat × Rat))) (key cat : String) (h : Rat)
    (hne : (e.1 == key) = false) :
    monthlyAdd (e :: rest) key cat h = e :: monthlyAdd rest key cat h := by
  unfold monthlyAdd
  rw [List.find?_cons_of_neg _ (by simp [hne])]
  by_cases hf : (rest.find? (fun x => x.1 == key)).isSome = true
  · rw [if_pos hf, if_pos hf]
    have hne' : e.1 ≠ key := by simpa using hne
    simp [hne']
  · rw [if_neg hf, if_neg hf]
    simp

/-- Helper: the bucket sum of one month list entry. -/
theorem monthsTotal_cons (e : String × (Rat × Rat × Rat))
    (rest : List (String × (Rat × Rat × Rat))) :
    monthsTotal (e :: rest) = (e.2.1 + e.2.2.1 + e.2.2.2) + monthsTotal rest := by
  simp [monthsTotal]

/-- Helper: on a duplicate-key-free month list, a `defaultdict` update adds
exactly the hours to the total. -/
theorem monthsTotal_monthlyAdd (m : List (String × (Rat × Rat × Rat))) (key cat : String)
    (h : Rat) (hn : (m.map Prod.fst).Nodup) :
    monthsTotal (monthlyAdd m key cat h) = monthsTotal m + h := by
  induction m with
  | nil =>
    show monthsTotal (monthlyAdd [] key cat h) = monthsTotal [] + h
    unfold monthlyAdd
    simp [monthsTotal, bumpCat_total]
  | cons e rest ih =>
    by_cases hk : (e.1 == key) = true
    · unfold monthlyAdd
      rw [List.find?_cons_of_pos _ (by simp [hk])]
      rw [if_pos (by simp)]
      have hkey : e.1 = key := by simpa using hk
      have hnodup := hn
      rw [List.map_cons, List.nodup_cons] at hnodup
      have hrest_ne : ∀ x ∈ rest, (x.1 == key) = false := by
        intro x hx
        have hne : x.1 ≠ key := by
          intro he
          exact hnodup.1 (hkey ▸ he ▸ List.mem_map_of_mem Prod.fst hx)
        simp [hne]
      have hmap : rest.map (fun x => if x.1 == key then (x.1, bumpCat cat x.2 h) else x) =
          rest :=
        List.map_congr_left (fun x hx => by simp [hrest_ne x hx]) |>.trans (List.map_id rest)
      rw [List.map_cons, if_pos hk, hmap, monthsTotal_cons, monthsTotal_cons, bumpCat_total]
      ring
    · have hk' : (e.1 == key) = false := by
        revert hk; cases e.1 == key <;> simp
      rw [monthlyAdd_cons_of_ne e rest key cat h hk']
      have hn' : (rest.map Prod.fst).Nodup := by
        rw [List.map_cons, List.nodup_cons] at hn
        exact hn.2
      rw [monthsTotal_cons, monthsTotal_cons, ih hn']
      ring

/-- Helper: a `defaultdict` update keeps the month keys duplicate-free. -/
theorem monthlyAdd_keys_nodup (m : List (String × (Rat × Rat × Rat))) (key cat : String)
    (h : Rat) (hn : (m.map Prod.fst).Nodup) :
    ((monthlyAdd m key cat h).map Prod.fst).Nodup := by
  unfold monthlyAdd
  by_cases hf : ((m.find? (fun e => e.1 == key)).isSome) = true
  · rw [if_pos hf]
    have hmap : (m.map (fun e => if e.1 == key then (e.1, bumpCat cat e.2 h) else e)).map
        Prod.fst = m.map Prod.fst := by
      rw [List.map_map]
      apply List.map_congr_left
      intro a _
      by_cases hk : a.1 = key <;> simp [hk]
    rw [hmap]
    exact hn
  · rw [if_neg hf]
    have hfn : m.find? (fun e => e.1 == key) = none := by
      revert hf; cases m.find? (fun e => e.1 == key) <;> simp
    have hkey : key ∉ m.map Prod.fst := by
      intro hmem
      rcases List.mem_map.mp hmem with ⟨e, he, heq⟩
      have h2 := List.find?_eq_none.mp hfn e he
      simp [heq] at h2
    simp [List.nodup_append, hn, hkey]

/-- Helper: the overall bucket update of one counted item adds exactly its
hours to the sum of the three buckets. -/
theorem overall_bucket_add (st : ChartAcc) (h : Rat) (cat : String)
    (M : List (String × (Rat × Rat × Rat))) (N : Nat) :
    overallTotal
      { bTrue := if cat == "True" then st.bTrue + h else st.bTrue,
        bFalse := if cat == "False" then st.bFalse + h else st.bFalse,
        bUnknown := if cat ≠ "True" ∧ cat ≠ "False" then st.bUnknown + h else st.bUnknown,
        monthly := M, totalItems := N } =
      overallTotal st + h := by
  unfold overallTotal
  by_cases h1 : (cat == "True") = true
  · have hc : cat = "True" := by simpa using h1
    subst hc
    simp
    ring
  · by_cases h2 : (cat == "False") = true
    · have hc : cat = "False" := by simpa using h2
      subst hc
      simp
      ring
    · have hc1 : cat ≠ "True" := by simpa using h1
      have hc2 : cat ≠ "False" := by simpa using h2
      simp [h1, h2, hc1, hc2]
      ring

/-- Helper: one charts iteration either skips the item, or adds its hours
to the overall total — and to the monthly total exactly when its work date
parses. -/
theorem chartStep_cases (af : String) (st : ChartAcc) (item : GraphItem)
    (hn : (st.monthly.map Prod.fst).Nodup) :
    chartStep af st item = st ∨
    ((chartStep af st item).monthly = st.monthly ∧
      overallTotal (chartStep af st item) = overallTotal st + itemHours item) ∨
    (monthlySum (chartStep af st item) = monthlySum st + itemHours item ∧
      overallTotal (chartStep af st item) = overallTotal st + itemHours item) := by
  simp only [chartStep]
  split
  · exact Or.inl rfl
  · split
    · refine Or.inr (Or.inr ⟨?_, ?_⟩)
      · show monthsTotal (monthlyAdd st.monthly _ _ _) = monthsTotal st.monthly + _
        exact monthsTotal_monthlyAdd _ _ _ _ hn
      · exact overall_bucket_add st _ _ _ _
    · exact Or.inr (Or.inl ⟨rfl, overall_bucket_add st _ _ _ _⟩)

/-- Helper: one charts iteration keeps the month keys duplicate-free. -/
theorem chartStep_keys_nodup (af : String) (st : ChartAcc) (item : GraphItem)
    (hn : (st.monthly.map Prod.fst).Nodup) :
    ((chartStep af st item).monthly.map Prod.fst).Nodup := by
  simp only [chartStep]
  split
  · exact hn
  · split
    · exact monthlyAdd_keys_nodup _ _ _ _ hn
    · exact hn

/-- Helper: one charts iteration never pushes the monthly total above the
overall total when the item's hours are nonnegative. -/
theorem chartStep_le (af : String) (st : ChartAcc) (item : GraphItem)
    (hpos : 0 ≤ itemHours item) (hn : (st.monthly.map Prod.fst).Nodup)
    (hle : monthlySum st ≤ overallTotal st) :
    monthlySum (chartStep af st item) ≤ overallTotal (chartStep af st item) := by
  rcases chartStep_cases af st item hn with h | ⟨hm, ho⟩ | ⟨hm, ho⟩
  · rw [h]; exact hle
  · rw [ho]
    have : monthlySum (chartStep af st item) = monthlySum st := by
      unfold monthlySum
      rw [hm]
    rw [this]
    exact le_add_of_le_of_nonneg hle hpos
  · rw [hm, ho]
    exact add_le_add_right hle _

/-- Helper: the charts fold preserves the monthly-below-overall bound. -/
theorem foldl_chartStep_le (af : String) : ∀ (items : List GraphItem) (st : ChartAcc),
    (∀ item ∈ items, 0 ≤ itemHours item) →
    (st.monthly.map Prod.fst).Nodup →
    monthlySum st ≤ overallTotal st →
    monthlySum (items.foldl (chartStep af) st) ≤
      overallTotal (items.foldl (chartStep af) st) := by
  intro items
  induction items with
  | nil => intro st _ _ hle; exact hle
  | cons item rest ih =>
    intro st hnn hn hle
    rw [List.foldl_cons]
    exact ih (chartStep af st item) (fun x hx => hnn x (List.mem_cons_of_mem _ hx))
      (chartStep_keys_nodup af st item hn)
      (chartStep_le af st item (hnn item (List.mem_cons_self _ _)) hn hle)

/-- C9 (amended): the chart aggregator tries its four literal date patterns
in their fixed source order with the first success winning; an item whose
work date fails all four still contributes its hours to the overall
billable totals but to no month of the monthly series; hence, when every
item's hours contribution is nonnegative, the sum of the monthly aggregate
totals never exceeds the overall aggregate total. -/
theorem claim_C9_chart_dates (af : String) (items : List GraphItem) :
    (∀ s d, fmtIsoZ s = some d → parseChartStr s = some d) ∧
    (∀ s d, fmtIsoZ s = none → pyStrptimeYMD s = some d → parseChartStr s = some d) ∧
    (∀ s d, fmtIsoZ s = none → pyStrptimeYMD s = none → fmtMDY s = some d →
      parseChartStr s = some d) ∧
    (∀ s, fmtIsoZ s = none → pyStrptimeYMD s = none → fmtMDY s = none →
      parseChartStr s = fmtDMY s) ∧
    (parseChartStr "01/02/2023" = some ⟨2023, 1, 2⟩ ∧
      fmtDMY "01/02/2023" = some ⟨2023, 2, 1⟩) ∧
    (∀ (st : ChartAcc) (item : GraphItem), af = "" →
      parseChartDate ((lookupKV item.fields "Work_x0020_Date").getD .pnone) = none →
      (chartStep af st item).monthly = st.monthly ∧
        overallTotal (chartStep af st item) = overallTotal st + itemHours item) ∧
    ((∀ item ∈ items, 0 ≤ itemHours item) →
      monthlySum (chartRun af items) ≤ overallTotal (chartRun af items)) := by
  refine ⟨?_, ?_, ?_, ?_, ⟨rfl, rfl⟩, ?_, ?_⟩
  · intro s d h1; unfold parseChartStr; rw [h1]
  · intro s d h1 h2; unfold parseChartStr; rw [h1, h2]
  · intro s d h1 h2 h3; unfold parseChartStr; rw [h1, h2, h3]
  · intro s h1 h2 h3; unfold parseChartStr; rw [h1, h2, h3]
  · intro st item haf hparse
    subst haf
    simp only [chartStep]
    rw [if_neg (by simp), hparse]
    exact ⟨rfl, overall_bucket_add st _ _ _ _⟩
  · intro hnn
    unfold chartRun
    exact foldl_chartStep_le af items chartInit hnn (by simp [chartInit])
      (by simp [monthlySum, overallTotal, chartInit, monthsTotal])

/-- Witness for C9: the plain-date pattern wins on an undashed input, and
an all-nonnegative run keeps the monthly total below the overall total. -/
theorem claim_C9_chart_dates_witness :
    parseChartStr "2023-01-15" = some ⟨2023, 1, 15⟩ ∧
      monthlySum (chartRun "" [⟨PyVal.pstr "1", [("Hours", PyVal.pint 0)]⟩]) ≤
        overallTotal (chartRun "" [⟨PyVal.pstr "1", [("Hours", PyVal.pint 0)]⟩]) := by
  have h := claim_C9_chart_dates "" [⟨PyVal.pstr "1", [("Hours", PyVal.pint 0)]⟩]
  refine ⟨h.2.1 "2023-01-15" ⟨2023, 1, 15⟩ rfl rfl, h.2.2.2.2.2.2 ?_⟩
  intro item hitem
  rw [List.mem_singleton.mp hitem]
  show (0 : Rat) ≤ itemHours ⟨PyVal.pstr "1", [("Hours", PyVal.pint 0)]⟩
  simp [itemHours, hoursContribution, lookupKV]

/-- C9 counterexample: an item with negative hours and an unparsable work
date drags the overall total below the already-bucketed monthly total, so
"the sum of monthly totals never exceeds the overall total" is false as
stated. -/
theorem claim_C9_counterexample :
    overallTotal (chartRun "" chartItemsNeg) < monthlySum (chartRun "" chartItemsNeg) := by
  have hov : overallTotal (chartRun "" chartItemsNeg) =
      0 + ((5 : Int) : Rat) + (((-3 : Int) : Rat) / ((1 : Nat) : Rat)) + 0 + 0 := rfl
  have hms : monthlySum (chartRun "" chartItemsNeg) =
      (0 + ((5 : Int) : Rat) + 0 + 0) + 0 := rfl
  rw [hov, hms]
  norm_num
